import Mathlib

/-!
Verification of the tsed-cli provider-registry and passport generate-hook
sources.

The registry (`ProvidersInfoService`) wraps a JavaScript `Map<string,
ProviderInfo>`: we embed that map as an ordered association list where
`set` overwrites an existing key in place (preserving the key's original
insertion position, as JS `Map.prototype.set` does) and appends a fresh
key at the end.  Code that can throw a `TypeError` (dereferencing
`undefined`) is embedded as `Option`-returning, `none` marking the throw.
-/

set_option autoImplicit false

namespace TsedCli

/-- ProviderInfo record from `ProvidersInfoService`: `{name, value, model?,
baseDir?, owner?}`. Optional fields are `Option`, absent = `none`. -/
structure ProviderInfo where
  name : String
  value : String
  model : Option String := none
  baseDir : Option String := none
  owner : Option String := none
deriving DecidableEq, Repr

/-- A class reference (`Type<any>` in the source), identified — as
`@tsed/core`'s `nameOf` does — by its class name. -/
structure OwnerType where
  className : String
deriving DecidableEq, Repr

/-- Modelled from the external `@tsed/core` collaborator: `nameOf(owner)`
returns the class name of a class reference, and the string `"undefined"`
when the optional `owner` argument was omitted (`"" + undefined`). -/
def nameOf : Option OwnerType → String
  | some t => t.className
  | none => "undefined"

/-- The registry's backing store: a JS `Map<string, ProviderInfo>` as an
insertion-ordered association list. -/
abbrev ProvidersMap := List (String × ProviderInfo)

/-- JS `Map.prototype.set`: overwrite an existing key in place (keeping its
original position), otherwise append the new entry at the end. -/
def jsMapSet : ProvidersMap → String → ProviderInfo → ProvidersMap
  | [], k, v => [(k, v)]
  | (k', v') :: rest, k, v =>
    if k' = k then (k, v) :: rest else (k', v') :: jsMapSet rest k v

/-- JS `Map.prototype.get`: first (= only, once keys are unique) entry for
the key, `none` standing for `undefined`. -/
def jsMapGet : ProvidersMap → String → Option ProviderInfo
  | [], _ => none
  | (k', v') :: rest, k => if k' = k then some v' else jsMapGet rest k

/-- `ProvidersInfoService.add(providerInfo, owner?)`:
`map.set(providerInfo.value, {...providerInfo, owner: nameOf(owner)})`. -/
def ProvidersInfoService.add (m : ProvidersMap) (providerInfo : ProviderInfo)
    (owner : Option OwnerType) : ProvidersMap :=
  jsMapSet m providerInfo.value { providerInfo with owner := some (nameOf owner) }

/-- `ProvidersInfoService.get(value)`: `map.get(value)`. -/
def ProvidersInfoService.get (m : ProvidersMap) (value : String) : Option ProviderInfo :=
  jsMapGet m value

/-- `ProvidersInfoService.isMyProvider(value, owner)`:
`map.get(value)!.owner === nameOf(owner)`. When `value` is unregistered the
source dereferences `undefined` and throws a `TypeError`; the throw is the
`none` result. -/
def ProvidersInfoService.isMyProvider (m : ProvidersMap) (value : String)
    (owner : OwnerType) : Option Bool :=
  match jsMapGet m value with
  | none => none
  | some info => some (info.owner == some (nameOf (some owner)))

/-- `ProvidersInfoService.toArray()`: `Array.from(map.values())`, i.e. the
values in the map's insertion order. -/
def ProvidersInfoService.toArray (m : ProvidersMap) : List ProviderInfo :=
  m.map Prod.snd

/-- One `add(info, owner)` call of a registration sequence. -/
structure AddCall where
  info : ProviderInfo
  owner : Option OwnerType
deriving DecidableEq, Repr

/-- The entry `add` stores for a call: the given info with `owner`
replaced by the registrant's `nameOf` name. -/
def storedInfo (c : AddCall) : ProviderInfo :=
  { c.info with owner := some (nameOf c.owner) }

/-- Run a sequence of `add` calls against an empty registry. -/
def runAdds (calls : List AddCall) : ProvidersMap :=
  calls.foldl (fun m c => ProvidersInfoService.add m c.info c.owner) []

/-! Basic lemmas about the JS map embedding. -/

theorem jsMapGet_jsMapSet_self (m : ProvidersMap) (k : String) (v : ProviderInfo) :
    jsMapGet (jsMapSet m k v) k = some v := by
  induction m with
  | nil => simp [jsMapSet, jsMapGet]
  | cons p rest ih =>
    obtain ⟨k', v'⟩ := p
    by_cases h : k' = k <;> simp [jsMapSet, jsMapGet, h, ih]

theorem jsMapGet_jsMapSet_other (m : ProvidersMap) (k k' : String) (v : ProviderInfo)
    (h : k' ≠ k) : jsMapGet (jsMapSet m k v) k' = jsMapGet m k' := by
  have hne : ¬(k = k') := fun hh => h hh.symm
  induction m with
  | nil => simp [jsMapSet, jsMapGet, hne]
  | cons p rest ih =>
    obtain ⟨k₀, v₀⟩ := p
    by_cases h0 : k₀ = k
    · subst h0
      simp [jsMapSet, jsMapGet, hne]
    · simp [jsMapSet, jsMapGet, h0, ih]

theorem keys_jsMapSet (m : ProvidersMap) (k : String) (v : ProviderInfo) :
    (jsMapSet m k v).map Prod.fst =
      (if k ∈ m.map Prod.fst then m.map Prod.fst else m.map Prod.fst ++ [k]) := by
  induction m with
  | nil => simp [jsMapSet]
  | cons p rest ih =>
    obtain ⟨k₀, v₀⟩ := p
    by_cases h0 : k₀ = k
    · subst h0
      simp [jsMapSet]
    · have h0' : ¬(k = k₀) := fun hh => h0 hh.symm
      by_cases hk : k ∈ rest.map Prod.fst <;>
        simp [jsMapSet, h0, ih, hk, h0']

theorem nodup_keys_jsMapSet (m : ProvidersMap) (k : String) (v : ProviderInfo)
    (h : (m.map Prod.fst).Nodup) : ((jsMapSet m k v).map Prod.fst).Nodup := by
  rw [keys_jsMapSet]
  split_ifs with hk
  · exact h
  · simp [List.nodup_append, h, hk]

theorem snd_value_jsMapSet (m : ProvidersMap) (k : String) (v : ProviderInfo)
    (hv : v.value = k) (h : ∀ p ∈ m, (Prod.snd p).value = Prod.fst p) :
    ∀ p ∈ jsMapSet m k v, (Prod.snd p).value = Prod.fst p := by
  induction m with
  | nil => simpa [jsMapSet] using hv
  | cons q rest ih =>
    obtain ⟨k₀, v₀⟩ := q
    by_cases h0 : k₀ = k
    · subst h0
      intro p hp
      simp only [jsMapSet, if_pos rfl] at hp
      rcases List.mem_cons.mp hp with rfl | hp'
      · exact hv
      · exact h p (List.mem_cons_of_mem _ hp')
    · intro p hp
      simp only [jsMapSet, if_neg h0] at hp
      rcases List.mem_cons.mp hp with rfl | hp'
      · exact h _ (List.mem_cons_self _ _)
      · exact ih (fun q hq => h q (List.mem_cons_of_mem _ hq)) p hp'

theorem jsMapGet_of_mem (m : ProvidersMap) (k : String) (v : ProviderInfo)
    (hnd : (m.map Prod.fst).Nodup) (hm : (k, v) ∈ m) : jsMapGet m k = some v := by
  induction m with
  | nil => cases hm
  | cons p rest ih =>
    obtain ⟨k₀, v₀⟩ := p
    rcases List.mem_cons.mp hm with heq | hm'
    · injection heq with h1 h2
      subst h1; subst h2
      simp [jsMapGet]
    · have hk : k ∈ rest.map Prod.fst := List.mem_map.mpr ⟨(k, v), hm', rfl⟩
      have h0 : k₀ ≠ k := by
        intro hh
        subst hh
        exact (List.nodup_cons.mp (by simpa using hnd)).1 hk
      simp only [jsMapGet, if_neg h0]
      exact ih (List.nodup_cons.mp (by simpa using hnd)).2 hm'

/-- One step of `runAdds` as a plain `jsMapSet`. -/
theorem add_eq_jsMapSet (m : ProvidersMap) (c : AddCall) :
    ProvidersInfoService.add m c.info c.owner = jsMapSet m c.info.value (storedInfo c) := rfl

/-- Core characterization of a registration sequence: looking up `value`
after folding the calls over any starting map yields the entry stored by
the last call registering `value`, and falls back to the starting map when
no call did. -/
theorem runAdds_get_general (calls : List AddCall) (value : String) :
    ∀ m : ProvidersMap,
      jsMapGet (calls.foldl (fun m c => ProvidersInfoService.add m c.info c.owner) m) value =
        ((calls.reverse.find? (fun c => c.info.value == value)).map storedInfo).or
          (jsMapGet m value) := by
  induction calls with
  | nil => intro m; simp
  | cons c rest ih =>
    intro m
    simp only [List.foldl_cons, List.reverse_cons, List.find?_append]
    rw [ih]
    cases hfind : rest.reverse.find? (fun c => c.info.value == value) with
    | some c' => rfl
    | none =>
      show jsMapGet (ProvidersInfoService.add m c.info c.owner) value =
        (((List.find? (fun c => c.info.value == value) [c]).map storedInfo)).or
          (jsMapGet m value)
      by_cases hv : c.info.value = value
      · rw [add_eq_jsMapSet, ← hv]
        simp only [List.find?, beq_self_eq_true, Option.map_some']
        rw [jsMapGet_jsMapSet_self]
        rfl
      · have hb : (c.info.value == value) = false := by simp [hv]
        rw [add_eq_jsMapSet]
        simp only [List.find?, hb, Option.map_none']
        rw [jsMapGet_jsMapSet_other _ _ _ _ (fun hh => hv hh.symm)]
        rfl

theorem runAdds_get (calls : List AddCall) (value : String) :
    ProvidersInfoService.get (runAdds calls) value =
      (calls.reverse.find? (fun c => c.info.value == value)).map storedInfo := by
  have h := runAdds_get_general calls value []
  rw [runAdds, ProvidersInfoService.get, h]
  cases (calls.reverse.find? (fun c => c.info.value == value)).map storedInfo <;>
    rfl

/-- Folding the calls keeps the key list duplicate-free. -/
theorem nodup_keys_runAdds (calls : List AddCall) :
    ((runAdds calls).map Prod.fst).Nodup := by
  rw [runAdds]
  have core : ∀ m : ProvidersMap, (m.map Prod.fst).Nodup →
      (((calls.foldl (fun m c => ProvidersInfoService.add m c.info c.owner) m)).map
        Prod.fst).Nodup := by
    induction calls with
    | nil => intro m hm; simpa using hm
    | cons c rest ih =>
      intro m hm
      simp only [List.foldl_cons]
      exact ih _ (by rw [add_eq_jsMapSet]; exact nodup_keys_jsMapSet _ _ _ hm)
  exact core [] (by simp)

/-- Append a key unless it is already present: how one `Map.set` changes
the key list (fresh keys go to the end, existing keys stay in place). -/
def insertKey (ks : List String) (k : String) : List String :=
  if k ∈ ks then ks else ks ++ [k]

/-- First-occurrence order of a list of keys: the insertion order a JS
`Map` exhibits after setting the keys left to right. -/
def firstOccs (l : List String) : List String :=
  l.foldl insertKey []

theorem keys_runAdds_general (calls : List AddCall) :
    ∀ m : ProvidersMap,
      ((calls.foldl (fun m c => ProvidersInfoService.add m c.info c.owner) m).map Prod.fst) =
        (calls.map (fun c => c.info.value)).foldl insertKey (m.map Prod.fst) := by
  induction calls with
  | nil => intro m; rfl
  | cons c rest ih =>
    intro m
    simp only [List.foldl_cons, List.map_cons]
    rw [ih]
    congr 1
    rw [add_eq_jsMapSet, keys_jsMapSet, insertKey]

theorem keys_runAdds (calls : List AddCall) :
    (runAdds calls).map Prod.fst = firstOccs (calls.map (fun c => c.info.value)) := by
  rw [runAdds, keys_runAdds_general, firstOccs]
  rfl

theorem snd_value_runAdds (calls : List AddCall) :
    ∀ p ∈ runAdds calls, (Prod.snd p).value = Prod.fst p := by
  rw [runAdds]
  have core : ∀ m : ProvidersMap, (∀ p ∈ m, (Prod.snd p).value = Prod.fst p) →
      ∀ p ∈ calls.foldl (fun m c => ProvidersInfoService.add m c.info c.owner) m,
        (Prod.snd p).value = Prod.fst p := by
    induction calls with
    | nil => intro m hm; simpa using hm
    | cons c rest ih =>
      intro m hm
      simp only [List.foldl_cons]
      refine ih _ ?_
      rw [add_eq_jsMapSet]
      exact snd_value_jsMapSet _ _ _ rfl hm
  exact core [] (by simp)

/-- C1: for every sequence of `add(providerInfo, owner)` calls,
`get(value)` returns exactly the entry stored by the last `add` whose
`info.value` equals `value` — the given info with `owner` set to the last
registrant's name — and `none` (JS `undefined`) when `value` was never
registered; moreover the registry never holds two entries for the same
`value` key. -/
theorem registry_lookup_last_write_wins (calls : List AddCall) (value : String) :
    ProvidersInfoService.get (runAdds calls) value =
      (calls.reverse.find? (fun c => c.info.value == value)).map storedInfo
    ∧ ((runAdds calls).map Prod.fst).Nodup :=
  ⟨runAdds_get calls value, nodup_keys_runAdds calls⟩

/-- C2: for a value registered at least once (its last registration being
the call `c`), `isMyProvider(value, owner)` returns `true` exactly when
the last registrant's `nameOf` identity matches `owner`'s, and returns
`false` for every other owner. -/
theorem ownership_check_matches_last_registrant (calls : List AddCall) (value : String)
    (owner : OwnerType) (c : AddCall)
    (h : calls.reverse.find? (fun a => a.info.value == value) = some c) :
    (ProvidersInfoService.isMyProvider (runAdds calls) value owner = some true ↔
      nameOf c.owner = nameOf (some owner))
    ∧ (nameOf c.owner ≠ nameOf (some owner) →
      ProvidersInfoService.isMyProvider (runAdds calls) value owner = some false) := by
  have hg : jsMapGet (runAdds calls) value = some (storedInfo c) := by
    have hg0 : ProvidersInfoService.get (runAdds calls) value = some (storedInfo c) := by
      rw [runAdds_get, h]; rfl
    exact hg0
  have hm : ProvidersInfoService.isMyProvider (runAdds calls) value owner =
      some (some (nameOf c.owner) == some (nameOf (some owner))) := by
    rw [ProvidersInfoService.isMyProvider, hg]
    rfl
  constructor
  · rw [hm]
    simp
  · intro hne
    rw [hm]
    simp [hne]

/-- Witness for C2 at a concrete registration: `"protocol"` registered by
`HookA`; the check answers `true` for `HookA` and `false` for `HookB`. -/
theorem ownership_check_matches_last_registrant_witness :
    ProvidersInfoService.isMyProvider
        (runAdds [⟨{ name := "Protocol", value := "protocol" }, some ⟨"HookA"⟩⟩])
        "protocol" ⟨"HookA"⟩ = some true
    ∧ ProvidersInfoService.isMyProvider
        (runAdds [⟨{ name := "Protocol", value := "protocol" }, some ⟨"HookA"⟩⟩])
        "protocol" ⟨"HookB"⟩ = some false := by
  have hA := ownership_check_matches_last_registrant
      [⟨{ name := "Protocol", value := "protocol" }, some ⟨"HookA"⟩⟩] "protocol" ⟨"HookA"⟩
      ⟨{ name := "Protocol", value := "protocol" }, some ⟨"HookA"⟩⟩ (by decide)
  have hB := ownership_check_matches_last_registrant
      [⟨{ name := "Protocol", value := "protocol" }, some ⟨"HookA"⟩⟩] "protocol" ⟨"HookB"⟩
      ⟨{ name := "Protocol", value := "protocol" }, some ⟨"HookA"⟩⟩ (by decide)
  exact ⟨hA.1.mpr rfl, hB.2 (by decide)⟩

/-- C3: for a value that was never registered, `isMyProvider` does not
return `false`: it dereferences the missing entry (`map.get(value)!`) and
throws a `TypeError`, modelled as the `none` result, for every owner. -/
theorem ownership_check_unregistered_throws (calls : List AddCall) (value : String)
    (owner : OwnerType) (h : ∀ c ∈ calls, c.info.value ≠ value) :
    ProvidersInfoService.isMyProvider (runAdds calls) value owner = none := by
  have hfind : calls.reverse.find? (fun c => c.info.value == value) = none := by
    rw [List.find?_eq_none]
    intro x hx
    simpa using h x (List.mem_reverse.mp hx)
  have hg : jsMapGet (runAdds calls) value = none := by
    have hg0 : ProvidersInfoService.get (runAdds calls) value = none := by
      rw [runAdds_get, hfind]; rfl
    exact hg0
  rw [ProvidersInfoService.isMyProvider, hg]

/-- Witness for C3: with only `"protocol"` registered, the ownership check
on `"controller"` throws (result `none`) rather than returning `false`. -/
theorem ownership_check_unregistered_throws_witness :
    ProvidersInfoService.isMyProvider
        (runAdds [⟨{ name := "Protocol", value := "protocol" }, some ⟨"HookA"⟩⟩])
        "controller" ⟨"HookA"⟩ = none :=
  ownership_check_unregistered_throws _ _ _ (by decide)

/-- C4: `toArray()` lists the stored infos in registration order — one
entry per distinct `value`, ordered by each value's first registration
(a later overwrite of the same value keeps the entry's position, as JS
`Map` iteration does) — and every listed entry is the one stored by the
last `add` for its value. -/
theorem toArray_registration_order (calls : List AddCall) :
    (ProvidersInfoService.toArray (runAdds calls)).map (fun i => i.value)
        = firstOccs (calls.map (fun c => c.info.value))
    ∧ ((ProvidersInfoService.toArray (runAdds calls)).map (fun i => i.value)).Nodup
    ∧ ∀ info ∈ ProvidersInfoService.toArray (runAdds calls),
        (calls.reverse.find? (fun c => c.info.value == info.value)).map storedInfo
          = some info := by
  have hmapval : (ProvidersInfoService.toArray (runAdds calls)).map (fun i => i.value)
      = (runAdds calls).map Prod.fst := by
    rw [ProvidersInfoService.toArray, List.map_map]
    exact List.map_congr_left (fun p hp => snd_value_runAdds calls p hp)
  refine ⟨?_, ?_, ?_⟩
  · rw [hmapval, keys_runAdds]
  · rw [hmapval]; exact nodup_keys_runAdds calls
  · intro info hinfo
    obtain ⟨p, hp, hsnd⟩ := List.mem_map.mp hinfo
    obtain ⟨k, v⟩ := p
    have hsnd' : v = info := hsnd
    subst hsnd'
    have hk : v.value = k := snd_value_runAdds calls (k, v) hp
    have hget : jsMapGet (runAdds calls) k = some v :=
      jsMapGet_of_mem _ _ _ (nodup_keys_runAdds calls) hp
    rw [← runAdds_get calls v.value]
    show jsMapGet (runAdds calls) v.value = some v
    rw [hk]
    exact hget

/-- Witness for C4 at a concrete sequence (protocol by HookA, controller
by HookB, protocol overwritten by HookC): order is first-registration
order and the protocol entry is HookC's. -/
theorem toArray_registration_order_witness :
    ((ProvidersInfoService.toArray (runAdds
        [⟨{ name := "Protocol", value := "protocol" }, some ⟨"HookA"⟩⟩,
         ⟨{ name := "Controller", value := "controller" }, some ⟨"HookB"⟩⟩,
         ⟨{ name := "Protocol2", value := "protocol" }, some ⟨"HookC"⟩⟩])).map
          (fun i => i.value)
        = firstOccs ["protocol", "controller", "protocol"])
    ∧ (([⟨({ name := "Protocol", value := "protocol" } : ProviderInfo), some ⟨"HookA"⟩⟩,
         ⟨{ name := "Controller", value := "controller" }, some ⟨"HookB"⟩⟩,
         (⟨{ name := "Protocol2", value := "protocol" }, some ⟨"HookC"⟩⟩ : AddCall)].reverse.find?
          (fun c => c.info.value == "protocol")).map storedInfo
        = some { name := "Protocol2", value := "protocol", owner := some "HookC" }) := by
  have h := toArray_registration_order
      [⟨{ name := "Protocol", value := "protocol" }, some ⟨"HookA"⟩⟩,
       ⟨{ name := "Controller", value := "controller" }, some ⟨"HookB"⟩⟩,
       ⟨{ name := "Protocol2", value := "protocol" }, some ⟨"HookC"⟩⟩]
  refine ⟨h.1, ?_⟩
  have h3 := h.2.2 { name := "Protocol2", value := "protocol", owner := some "HookC" }
      (by decide)
  exact h3

/-! The `PassportGenerateHook` of `cli-plugin-passport`. -/

/-- Modelled from the external change-case dependency's `paramCase`
(kebab-case) used by the hook: lowercase the input, separating camel-case
humps and non-alphanumeric runs with a dash.  No theorem depends on its
exact output, only on `protocolName` being `paramCase` of `name`. -/
def paramCase (s : String) : String :=
  let step : List Char → Char → List Char := fun acc c =>
    if c.isUpper then
      (if acc = [] ∨ acc.getLast? = some (Char.ofNat 45) then acc
       else acc ++ [Char.ofNat 45]) ++ [c.toLower]
    else if c.isAlphanum then acc ++ [c]
    else if acc = [] ∨ acc.getLast? = some (Char.ofNat 45) then acc
    else acc ++ [Char.ofNat 45]
  String.mk (s.data.foldl step [])

/-- Value of the `dist-tags` field of a remote package record. -/
structure DistTags where
  latest : Option String := none
deriving DecidableEq, Repr

/-- Remote package metadata as returned by the external
`PassportClient.getPackages()` collaborator; only the fields the hook
reads. `distTags` stands for the `"dist-tags"` property, absent = `none`. -/
structure Pkg where
  name : String
  description : String
  distTags : Option DistTags := none
deriving DecidableEq, Repr

/-- An autocomplete choice `{name, value}` as built in `onGeneratePrompt`. -/
structure Choice where
  name : String
  value : String
deriving DecidableEq, Repr

/-- The choice list `onGeneratePrompt` builds from the fetched packages:
display name `item.name + " - " + item.description`, value `item.name`. -/
def choicesOf (packages : List Pkg) : List Choice :=
  packages.map (fun item =>
    { name := item.name ++ " - " ++ item.description, value := item.name })

/-- JS `String.prototype.toLowerCase` on the character sequence. -/
def jsToLower (s : String) : String := String.mk (s.data.map Char.toLower)

/-- JS `String.prototype.includes`: `needle` occurs as a contiguous
substring of `s` (always true for the empty needle). -/
def stringIncludes (s needle : String) : Bool :=
  s.data.tails.any (fun t => needle.data.isPrefixOf t)

/-- A prompt question as contributed by `onGeneratePrompt`.  `whenPred`
models the `when(state)` callback applied to `state.type` (the only state
field it reads); `source` models the async source callback applied to the
typed keyword (its `state` argument is unused in the source). -/
structure Question where
  type : String
  name : String
  message : String
  whenPred : String → Bool
  source : String → List Choice

/-- `PassportGenerateHook.onGeneratePrompt`, applied to the package list
the hook fetched (and cached on `this.packages`) at the start of the
prompt phase: one autocomplete question whose `when` requires
`state.type` to be in `["protocol"]` and whose `source` returns the whole
prebuilt list for an empty keyword and otherwise filters it by
case-insensitive substring match on the display name — without touching
the remote client again. -/
def PassportGenerateHook.onGeneratePrompt (packages : List Pkg) : List Question :=
  let list := packages.map (fun item =>
    ({ name := item.name ++ " - " ++ item.description, value := item.name } : Choice))
  [{ type := "autocomplete",
     name := "passportPackage",
     message := "Which passport package ?",
     whenPred := fun stateType => ["protocol"].contains stateType,
     source := fun keyword =>
       if keyword = "" then list
       else list.filter (fun item =>
         stringIncludes (jsToLower item.name) (jsToLower keyword)) }]

/-- Questions the prompt form keeps for a given accumulated `state.type`:
those whose `when` predicate answers `true`. -/
def visibleQuestions (qs : List Question) (stateType : String) : List Question :=
  qs.filter (fun q => q.whenPred stateType)

/-- The generation context (`IPassportGenerationOptions`): the fields the
hook reads, plus `extra` for the open-ended remaining keys of the bag. -/
structure PassportGenerationOptions where
  type : String
  name : String
  passportPackage : String
  symbolPath : String
  extra : List (String × String) := []
deriving DecidableEq, Repr

/-- Result of `mapOptions`: the spread copy of the options with the
derived `protocolName` key added. -/
structure MappedOptions where
  type : String
  name : String
  passportPackage : String
  symbolPath : String
  extra : List (String × String) := []
  protocolName : String
deriving DecidableEq, Repr

/-- The render payload: `mapOptions(ctx)` with `symbolPath` destructured
away (`const {symbolPath, ...data} = this.mapOptions(ctx)`). -/
structure RenderData where
  type : String
  name : String
  passportPackage : String
  extra : List (String × String) := []
  protocolName : String
deriving DecidableEq, Repr

/-- `PassportGenerateHook.mapOptions(options)`:
`{...options, protocolName: paramCase(options.name), passportPackage:
options.passportPackage}` — every key of the input kept, `protocolName`
added. -/
def PassportGenerateHook.mapOptions (options : PassportGenerationOptions) : MappedOptions :=
  { type := options.type,
    name := options.name,
    passportPackage := options.passportPackage,
    symbolPath := options.symbolPath,
    extra := options.extra,
    protocolName := paramCase options.name }

/-- Drop `symbolPath` from the mapped options (the rest-spread `...data`). -/
def MappedOptions.dropSymbolPath (m : MappedOptions) : RenderData :=
  { type := m.type,
    name := m.name,
    passportPackage := m.passportPackage,
    extra := m.extra,
    protocolName := m.protocolName }

/-- `PassportGenerateHook.getTemplate(passportPackage)` against the set of
templates the external `srcRenderService.templateExists` reports present:
the package-specific `<pkg>.protocol.hbs` when it exists, else the
`generic.protocol.hbs` fallback. -/
def PassportGenerateHook.getTemplate (templates : List String) (passportPackage : String) :
    String :=
  let template := passportPackage ++ ".protocol.hbs"
  if templates.contains template then template else "generic.protocol.hbs"

/-- `PassportGenerateHook.getPassportPackageVersion(passportPackage)`:
reads `this.packages` (the cache the prompt phase fills; `none` when
`onGeneratePrompt` never ran).  `this.packages.find(...)` on the missing
cache throws a TypeError — the outer `none`.  With a cache, returns
`pkg["dist-tags"]?.latest` of the first name match, or `undefined` (inner
`none`) when no package matches. -/
def PassportGenerateHook.getPassportPackageVersion (packages : Option (List Pkg))
    (passportPackage : String) : Option (Option String) :=
  match packages with
  | none => none
  | some pkgs =>
    some (match pkgs.find? (fun pkg => pkg.name == passportPackage) with
          | some pkg => pkg.distTags.bind (fun d => d.latest)
          | none => none)

/-- The hook class's `nameOf` identity. -/
def passportGenerateHookType : OwnerType := ⟨"PassportGenerateHook"⟩

/-- Registry state right after the hook's constructor:
`providersInfoService.add({name: "Protocol", value: "protocol"},
PassportGenerateHook)`. -/
def initialRegistry : ProvidersMap :=
  ProvidersInfoService.add [] { name := "Protocol", value := "protocol" }
    (some passportGenerateHookType)

/-- The one task `onGenerateExec` emits: its interpolated title and the
`srcRenderService.render` call it performs (template id, payload, output
path). -/
structure GenTask where
  title : String
  template : String
  data : RenderData
  output : String
deriving DecidableEq, Repr

/-- `PassportGenerateHook.onGenerateExec(ctx)` over explicit state: the
registry map, the `this.packages` cache, and the set of existing
templates.  Result: `none` when the source throws (unregistered
`ctx.type` in `isMyProvider`, or missing package cache), otherwise the
task list together with the `projectPackageJson.addDependency` calls
performed. -/
def PassportGenerateHook.onGenerateExec (m : ProvidersMap) (packages : Option (List Pkg))
    (templates : List String) (ctx : PassportGenerationOptions) :
    Option (List GenTask × List (String × Option String)) :=
  match ProvidersInfoService.isMyProvider m ctx.type passportGenerateHookType with
  | none => none
  | some false => some ([], [])
  | some true =>
    match PassportGenerateHook.getPassportPackageVersion packages ctx.passportPackage with
    | none => none
    | some version =>
      let mapped := PassportGenerateHook.mapOptions ctx
      some ([{ title := "Generate " ++ ctx.type ++ " file to \x27" ++
                 mapped.symbolPath ++ ".ts\x27",
               template := PassportGenerateHook.getTemplate templates ctx.passportPackage,
               data := mapped.dropSymbolPath,
               output := mapped.symbolPath ++ ".ts" }],
            [(ctx.passportPackage, version)])

theorem getPassportPackageVersion_some (pkgs : List Pkg) (p : String) :
    PassportGenerateHook.getPassportPackageVersion (some pkgs) p =
      some ((pkgs.find? (fun pkg => pkg.name == p)).bind
        (fun pkg => pkg.distTags.bind (fun d => d.latest))) := by
  rw [PassportGenerateHook.getPassportPackageVersion]
  cases pkgs.find? (fun pkg => pkg.name == p) <;> rfl

/-- C5: when `ctx.type` is registered to a different owner,
`onGenerateExec` returns the empty task list and performs no
`addDependency` side effect; when `ctx.type` is owned by
`PassportGenerateHook` (and the prompt phase cached the package list), it
returns exactly one task and registers the passport package as a
dependency. -/
theorem exec_dispatch_by_ownership (m : ProvidersMap) (pkgs : List Pkg)
    (templates : List String) (ctx : PassportGenerationOptions) (info : ProviderInfo)
    (hreg : ProvidersInfoService.get m ctx.type = some info) :
    (info.owner ≠ some "PassportGenerateHook" →
      ∀ packages, PassportGenerateHook.onGenerateExec m packages templates ctx = some ([], []))
    ∧ (info.owner = some "PassportGenerateHook" →
      ∃ task version,
        PassportGenerateHook.onGenerateExec m (some pkgs) templates ctx =
          some ([task], [(ctx.passportPackage, version)])) := by
  have hg : jsMapGet m ctx.type = some info := hreg
  have hname : nameOf (some passportGenerateHookType) = "PassportGenerateHook" := rfl
  constructor
  · intro hne packages
    have hb : (info.owner == some (nameOf (some passportGenerateHookType))) = false := by
      rw [hname]; simpa using hne
    rw [PassportGenerateHook.onGenerateExec, ProvidersInfoService.isMyProvider, hg]
    simp only [hb]
  · intro heq
    have hb : (info.owner == some (nameOf (some passportGenerateHookType))) = true := by
      rw [hname]; simpa using heq
    refine ⟨{ title := "Generate " ++ ctx.type ++ " file to \x27" ++
                (PassportGenerateHook.mapOptions ctx).symbolPath ++ ".ts\x27",
              template := PassportGenerateHook.getTemplate templates ctx.passportPackage,
              data := (PassportGenerateHook.mapOptions ctx).dropSymbolPath,
              output := (PassportGenerateHook.mapOptions ctx).symbolPath ++ ".ts" },
            (pkgs.find? (fun pkg => pkg.name == ctx.passportPackage)).bind
              (fun pkg => pkg.distTags.bind (fun d => d.latest)), ?_⟩
    rw [PassportGenerateHook.onGenerateExec, ProvidersInfoService.isMyProvider, hg]
    simp only [hb, getPassportPackageVersion_some]

/-- Witness for C5: a `"controller"` context owned by another hook yields
no tasks and no dependency; a `"protocol"` context on the constructor's
registry yields one task with the passport dependency registered. -/
theorem exec_dispatch_by_ownership_witness :
    PassportGenerateHook.onGenerateExec
        (ProvidersInfoService.add [] { name := "Controller", value := "controller" }
          (some ⟨"ControllerHook"⟩))
        none [] { type := "controller", name := "X", passportPackage := "p", symbolPath := "s" }
      = some ([], [])
    ∧ ∃ task version,
        PassportGenerateHook.onGenerateExec initialRegistry
          (some [{ name := "p", description := "d",
                   distTags := some { latest := some "1.0.0" } }])
          [] { type := "protocol", name := "X", passportPackage := "p", symbolPath := "s" }
          = some ([task], [("p", version)]) := by
  constructor
  · exact (exec_dispatch_by_ownership
        (ProvidersInfoService.add [] { name := "Controller", value := "controller" }
          (some ⟨"ControllerHook"⟩)) [] []
        { type := "controller", name := "X", passportPackage := "p", symbolPath := "s" }
        { name := "Controller", value := "controller", owner := some "ControllerHook" }
        (by decide)).1 (by decide) none
  · exact (exec_dispatch_by_ownership initialRegistry
        [{ name := "p", description := "d", distTags := some { latest := some "1.0.0" } }] []
        { type := "protocol", name := "X", passportPackage := "p", symbolPath := "s" }
        { name := "Protocol", value := "protocol", owner := some "PassportGenerateHook" }
        (by decide)).2 rfl

/-- Counterexample to C5 as universally stated: with `"protocol"` owned by
`PassportGenerateHook` but the package cache never set (the prompt phase
did not run), `onGenerateExec` does not return one task — it throws while
resolving the dependency version. -/
theorem exec_owned_without_cache_counterexample :
    PassportGenerateHook.onGenerateExec initialRegistry none []
        { type := "protocol", name := "X", passportPackage := "p", symbolPath := "s" } = none
    ∧ ¬ ∃ task version,
        PassportGenerateHook.onGenerateExec initialRegistry none []
          { type := "protocol", name := "X", passportPackage := "p", symbolPath := "s" }
          = some ([task], [("p", version)]) := by
  constructor
  · rfl
  · rintro ⟨task, version, hcontra⟩
    have h0 : (none : Option (List GenTask × List (String × Option String))) =
        some ([task], [("p", version)]) := hcontra
    exact Option.noConfusion h0

/-- C6: the `when` predicate of the `passportPackage` question returns
`true` exactly when the accumulated `state.type` is `"protocol"`, and the
rendered form drops the question for every other type. -/
theorem prompt_when_only_protocol (pkgs : List Pkg) (t : String) :
    ((PassportGenerateHook.onGeneratePrompt pkgs).map (fun q => q.whenPred t))
      = [decide (t = "protocol")]
    ∧ visibleQuestions (PassportGenerateHook.onGeneratePrompt pkgs) t
      = (if t = "protocol" then PassportGenerateHook.onGeneratePrompt pkgs else []) := by
  constructor
  · by_cases h : t = "protocol" <;>
      simp [PassportGenerateHook.onGeneratePrompt, h]
  · by_cases h : t = "protocol" <;>
      simp [PassportGenerateHook.onGeneratePrompt, visibleQuestions, h]

/-- C7: the autocomplete source over the list fetched once in the prompt
phase returns the entire prebuilt list for the empty keyword and, for a
non-empty keyword, exactly the entries whose display name contains the
keyword case-insensitively — and `stringIncludes` is genuine substring
containment. -/
theorem prompt_source_filters_cached_list (pkgs : List Pkg) (kw : String) :
    ((PassportGenerateHook.onGeneratePrompt pkgs).map (fun q => q.source kw))
      = [if kw = "" then choicesOf pkgs
         else (choicesOf pkgs).filter (fun c =>
           stringIncludes (jsToLower c.name) (jsToLower kw))]
    ∧ ∀ s needle : String,
        (stringIncludes s needle = true ↔ ∃ l r, s.data = l ++ needle.data ++ r) := by
  constructor
  · simp [PassportGenerateHook.onGeneratePrompt, choicesOf]
  · intro s needle
    rw [stringIncludes, List.any_eq_true]
    constructor
    · rintro ⟨t, ht, hp⟩
      obtain ⟨l, hl⟩ := (List.mem_tails _ _).mp ht
      obtain ⟨r, hr⟩ := List.isPrefixOf_iff_prefix.mp hp
      exact ⟨l, r, by rw [← hl, ← hr, List.append_assoc]⟩
    · rintro ⟨l, r, hs⟩
      refine ⟨needle.data ++ r, ?_, ?_⟩
      · exact (List.mem_tails _ _).mpr ⟨l, by rw [hs, List.append_assoc]⟩
      · exact List.isPrefixOf_iff_prefix.mpr ⟨r, rfl⟩

/-- C8: `mapOptions` keeps every key/value of the input context — `type`,
`name`, `passportPackage` (re-set to itself by the spread), `symbolPath`
and all remaining keys — and adds the derived `protocolName`, the
param-cased form of `ctx.name`. -/
theorem mapOptions_preserves_context (ctx : PassportGenerationOptions) :
    (PassportGenerateHook.mapOptions ctx).type = ctx.type
    ∧ (PassportGenerateHook.mapOptions ctx).name = ctx.name
    ∧ (PassportGenerateHook.mapOptions ctx).passportPackage = ctx.passportPackage
    ∧ (PassportGenerateHook.mapOptions ctx).symbolPath = ctx.symbolPath
    ∧ (PassportGenerateHook.mapOptions ctx).extra = ctx.extra
    ∧ (PassportGenerateHook.mapOptions ctx).protocolName = paramCase ctx.name :=
  ⟨rfl, rfl, rfl, rfl, rfl, rfl⟩

/-- C9: the exec phase reads the package cache the prompt phase left on
the hook instance: for an owned context with the cache never set
(`this.packages` undefined) `onGenerateExec` throws (result `none`);
given a cached list, `getPassportPackageVersion` returns the matching
package's latest dist-tag, or `undefined` when the selected package is
absent from the cache. -/
theorem packages_cache_read_across_phases (m : ProvidersMap) (templates : List String)
    (ctx : PassportGenerationOptions) (pkgs : List Pkg)
    (h : ProvidersInfoService.isMyProvider m ctx.type passportGenerateHookType = some true) :
    PassportGenerateHook.onGenerateExec m none templates ctx = none
    ∧ PassportGenerateHook.getPassportPackageVersion none ctx.passportPackage = none
    ∧ PassportGenerateHook.getPassportPackageVersion (some pkgs) ctx.passportPackage =
        some ((pkgs.find? (fun pkg => pkg.name == ctx.passportPackage)).bind
          (fun pkg => pkg.distTags.bind (fun d => d.latest))) := by
  refine ⟨?_, rfl, getPassportPackageVersion_some pkgs ctx.passportPackage⟩
  rw [PassportGenerateHook.onGenerateExec, h]
  rfl

/-- Witness for C9: on the constructor's registry with no cache the exec
phase throws; with a cache holding `"p"` at latest `"2.0"`, the version
lookup returns `"2.0"`. -/
theorem packages_cache_read_across_phases_witness :
    PassportGenerateHook.onGenerateExec initialRegistry none []
        { type := "protocol", name := "N", passportPackage := "p", symbolPath := "s" } = none
    ∧ PassportGenerateHook.getPassportPackageVersion
        (some [{ name := "p", description := "d", distTags := some { latest := some "2.0" } }])
        "p" = some (some "2.0") := by
  have h := packages_cache_read_across_phases initialRegistry []
      { type := "protocol", name := "N", passportPackage := "p", symbolPath := "s" }
      [{ name := "p", description := "d", distTags := some { latest := some "2.0" } }]
      (by decide)
  exact ⟨h.1, by rw [h.2.2]; rfl⟩

/-- C10: `getTemplate` returns the package-specific
`<passportPackage>.protocol.hbs` exactly when the template collaborator
reports it present, otherwise the `generic.protocol.hbs` fallback — so
the returned template either exists or is the generic one, and a
non-existent package-specific template is never selected. -/
theorem getTemplate_fallback (templates : List String) (p : String) :
    (templates.contains (p ++ ".protocol.hbs") = true →
      PassportGenerateHook.getTemplate templates p = p ++ ".protocol.hbs")
    ∧ (templates.contains (p ++ ".protocol.hbs") = false →
      PassportGenerateHook.getTemplate templates p = "generic.protocol.hbs")
    ∧ (templates.contains (PassportGenerateHook.getTemplate templates p) = true
       ∨ PassportGenerateHook.getTemplate templates p = "generic.protocol.hbs") := by
  have hunf : PassportGenerateHook.getTemplate templates p =
      (if templates.contains (p ++ ".protocol.hbs") then p ++ ".protocol.hbs"
       else "generic.protocol.hbs") := rfl
  cases h : templates.contains (p ++ ".protocol.hbs") with
  | true =>
    have hval : PassportGenerateHook.getTemplate templates p = p ++ ".protocol.hbs" := by
      rw [hunf, h]
      simp
    exact ⟨fun _ => hval, fun hf => Bool.noConfusion hf, Or.inl (by rw [hval]; exact h)⟩
  | false =>
    have hval : PassportGenerateHook.getTemplate templates p = "generic.protocol.hbs" := by
      rw [hunf, h]
      simp
    exact ⟨fun ht => Bool.noConfusion ht, fun _ => hval, Or.inr hval⟩

/-- Witness for C10: with the `passport-local` template present the
specific template is chosen; with no templates present the generic
fallback is. -/
theorem getTemplate_fallback_witness :
    PassportGenerateHook.getTemplate ["passport-local.protocol.hbs"] "passport-local"
      = "passport-local.protocol.hbs"
    ∧ PassportGenerateHook.getTemplate [] "passport-local" = "generic.protocol.hbs" :=
  ⟨(getTemplate_fallback ["passport-local.protocol.hbs"] "passport-local").1 (by decide),
   (getTemplate_fallback [] "passport-local").2.1 (by decide)⟩

end TsedCli
